import Mathlib

/-!
Verification development for the dimpo languages app.

The definitions below are a shallow embedding of the TypeScript source:

* `src/app/lessons.tsx` — progression engine (`isUnitLocked`, `isLessonLocked`),
  daily quota (`checkDailyLessonLimit`, `incrementDailyLessonCount`), and the
  per-unit resource cache (`downloadResource`, `downloadUnitResources`).
* `src/app/lesson.tsx` — lesson player state machine (retry / review /
  celebration transitions).
* `src/app/components/CompleteTranslationQuestion.tsx` —
  `levenshteinDistance` and `isAnswerCorrectWithSpellingTolerance`.

JavaScript numbers are modelled as `Int` (ids, orders, counts) or `Nat`
(list lengths, edit distances); `Math.min`/`Math.max` over a possibly empty
array are modelled with `Option Int` (`none` standing for the
`Infinity` / `-Infinity` result on the empty array); `Array.prototype.find`
is `List.find?`; optional-chaining misses are `Option`.
-/

namespace DimpoLang

/-- Lesson record as fetched from the backend (`interface Lesson` in
`lessons.tsx`; the `title`, `unitName`, `hasLanguageWords` and
`unitDescription` display fields are irrelevant to locking and omitted). -/
structure Lesson where
  id : Int
  lessonOrder : Int
  unitId : Int
  unitOrder : Int
  deriving DecidableEq, Repr

/-- Unit grouping of lessons (`interface Unit` in `lessons.tsx`; the `name`
and `description` display fields are omitted). -/
structure Unit where
  id : Int
  lessons : List Lesson
  unitOrder : Int
  deriving DecidableEq, Repr

/-- Progress status literals `started` / `completed` / `not_started`. -/
inductive Status where
  | started
  | completed
  | not_started
  deriving DecidableEq, Repr

/-- Progress record (`interface LessonProgress`; `lessonTitle` and
`lastUpdate` are display-only and omitted). -/
structure LessonProgress where
  id : Int
  lessonId : Int
  unitId : Int
  status : Status
  deriving DecidableEq, Repr

/-- Subscription tier of a learner. -/
inductive Subscription where
  | free
  | premium
  deriving DecidableEq, Repr

/-- Learner record (`interface Learner`); only the `subscription` field is
read by the locking and quota logic, the other profile fields are omitted. -/
structure Learner where
  subscription : Subscription
  deriving DecidableEq, Repr

/-- Daily quota counter (`interface DailyLessonCount`): a count and an ISO
date string `YYYY-MM-DD`. -/
structure DailyLessonCount where
  count : Int
  date : String
  deriving DecidableEq, Repr

/-- JavaScript `Math.min(...list)`: `none` models the `Infinity` returned on
an empty array (it compares unequal to every finite number). -/
def jsMinList : List Int → Option Int
  | [] => none
  | a :: as => some (as.foldl min a)

/-- JavaScript `Math.max(...list)`: `none` models the `-Infinity` returned on
an empty array. -/
def jsMaxList : List Int → Option Int
  | [] => none
  | a :: as => some (as.foldl max a)

/-- JavaScript `array.reduce((lowest, current) => f current < f lowest ?
current : lowest)` without an initial value: the first element seeds the
accumulator; `none` models the `TypeError` thrown on an empty array. -/
def jsReduceMin (f : α → Int) : List α → Option α
  | [] => none
  | x :: xs => some (xs.foldl (fun lowest current => if f current < f lowest then current else lowest) x)

/-- The strict-equality test of `learner?.subscription` against the literal
`free`: it is `false` when the learner is absent (`null`) thanks to
optional chaining. -/
def subscriptionIsFree : Option Learner → Bool
  | none => false
  | some l => l.subscription == Subscription.free

/-- Embeds `isUnitLocked` from `lessons.tsx` (lines 246–268). -/
def isUnitLocked (units : List Unit) (learnerProgress : List LessonProgress)
    (unitId : Int) : Bool :=
  match units.find? (fun u => u.id == unitId) with
  | none => true
  | some unit =>
    let minOrder := jsMinList (units.map (fun u => u.unitOrder))
    if some unit.unitOrder == minOrder then
      false
    else
      match units.find? (fun u => u.unitOrder == unit.unitOrder - 1) with
      | none => true
      | some prevUnit =>
        let allPrevCompleted := prevUnit.lessons.all (fun lesson =>
          match learnerProgress.find? (fun p => p.lessonId == lesson.id) with
          | some progress => progress.status == Status.completed
          | none => false)
        !allPrevCompleted

/-- Embeds the part of `isLessonLocked` after the free-tier block
(`lessons.tsx` lines 289–345): unit lock, cold start, previous-lesson
unlock, and the furthest-reached boundary. -/
def isLessonLockedCore (units : List Unit) (learnerProgress : List LessonProgress)
    (unitId lessonId : Int) : Bool :=
  if isUnitLocked units learnerProgress unitId then
    true
  else if learnerProgress.length == 0 then
    -- cold start: `units.reduce(...)` then `unitLessons.reduce(...)`;
    -- `units` is nonempty here (otherwise the unit lookup above failed and
    -- the unit was reported locked), so the `none` branches are unreachable
    match jsReduceMin (fun u => u.unitOrder) units with
    | none => true
    | some lowestOrderUnit =>
      match jsReduceMin (fun l => l.lessonOrder) lowestOrderUnit.lessons with
      | none => true
      | some lowestOrderLesson =>
        !(unitId == lowestOrderUnit.id) || !(lessonId == lowestOrderLesson.id)
  else
    let unitLessons : List Lesson := ((units.find? (fun u => u.id == unitId)).map Unit.lessons).getD []
    let highestLessonOrder := jsMaxList ((learnerProgress.filter (fun (p : LessonProgress) =>
        p.unitId == unitId && (p.status == Status.started || p.status == Status.completed))).map
      (fun (p : LessonProgress) =>
        ((unitLessons.find? (fun (l : Lesson) => l.id == p.lessonId)).map Lesson.lessonOrder).getD 0))
    let currentLessonOrder := ((unitLessons.find? (fun (l : Lesson) => l.id == lessonId)).map Lesson.lessonOrder).getD 0
    let previousCompleted :=
      match unitLessons.find? (fun (l : Lesson) => l.lessonOrder == currentLessonOrder - 1) with
      | some previousLesson =>
        match learnerProgress.find? (fun (p : LessonProgress) => p.lessonId == previousLesson.id) with
        | some previousLessonProgress => previousLessonProgress.status == Status.completed
        | none => false
      | none => false
    if previousCompleted then
      false
    else
      match highestLessonOrder with
      | none =>
        -- `highestLessonOrder === -Infinity`: no started or completed
        -- progress in this unit; unlock only the minimum-order lesson
        let minOrder := jsMinList (unitLessons.map (fun (l : Lesson) => l.lessonOrder))
        !(some currentLessonOrder == minOrder)
      | some highest => currentLessonOrder > highest

/-- The free-member content-wall test at the top of `isLessonLocked`
(`lessons.tsx` lines 273–280): the candidate lesson is found in a unit with
`unitOrder ≥ 3` and itself has `lessonOrder ≥ 2`. -/
def contentWallHit (units : List Unit) (unitId lessonId : Int) : Bool :=
  match units.find? (fun (u : Unit) => u.id == unitId) with
  | some unit =>
    if unit.unitOrder ≥ 3 then
      match unit.lessons.find? (fun (l : Lesson) => l.id == lessonId) with
      | some lesson => decide (lesson.lessonOrder ≥ 2)
      | none => false
    else false
  | none => false

/-- Embeds `isLessonLocked` from `lessons.tsx` (lines 271–345). The current
date string (`getTodayString()`) is passed explicitly as `today`. -/
def isLessonLocked (learner : Option Learner) (dailyLessonCount : DailyLessonCount)
    (today : String) (units : List Unit) (learnerProgress : List LessonProgress)
    (unitId lessonId : Int) : Bool :=
  if subscriptionIsFree learner then
    -- free member restrictions: lock unit 3 lesson 2 and onwards
    if contentWallHit units unitId lessonId then
      true
    else if dailyLessonCount.date == today && decide (dailyLessonCount.count ≥ 3) then
      true
    else
      isLessonLockedCore units learnerProgress unitId lessonId
  else
    isLessonLockedCore units learnerProgress unitId lessonId

/-- Return record of `checkDailyLessonLimit`. -/
structure DailyLimitResult where
  canTakeLesson : Bool
  remainingLessons : Int
  deriving DecidableEq, Repr

/-- Embeds `checkDailyLessonLimit` from `lessons.tsx` (lines 143–158). The
triple returned is the result record, the new in-memory `dailyLessonCount`
state (`setDailyLessonCount`), and the `SecureStore` write performed
(`none`: this function never writes persistent storage). -/
def checkDailyLessonLimit (learner : Option Learner)
    (dailyLessonCount : DailyLessonCount) (today : String) :
    DailyLimitResult × DailyLessonCount × Option DailyLessonCount :=
  if !(subscriptionIsFree learner) then
    ({ canTakeLesson := true, remainingLessons := -1 }, dailyLessonCount, none)
  else if dailyLessonCount.date != today then
    ({ canTakeLesson := true, remainingLessons := 3 },
      { count := 0, date := today }, none)
  else
    let remainingLessons := 3 - dailyLessonCount.count
    ({ canTakeLesson := decide (remainingLessons > 0), remainingLessons := remainingLessons },
      dailyLessonCount, none)

/-- Embeds `incrementDailyLessonCount` from `lessons.tsx` (lines 161–176).
The pair returned is the new in-memory state and the `SecureStore` write
(`some v`: `setItemAsync` persisting `v`; `none`: no write). -/
def incrementDailyLessonCount (learner : Option Learner)
    (dailyLessonCount : DailyLessonCount) (today : String) :
    DailyLessonCount × Option DailyLessonCount :=
  if !(subscriptionIsFree learner) then
    (dailyLessonCount, none)
  else
    let newCount := if dailyLessonCount.date == today then dailyLessonCount.count + 1 else 1
    ({ count := newCount, date := today }, some { count := newCount, date := today })

/-! ## Local resource cache (`lessons.tsx` lines 347–444)

The component state touched by the download path is modelled explicitly:
the in-memory `downloadedResources` set, the set of file URIs present on
disk, the `downloadProgress` counter, and a log of the network file
downloads performed (`FileSystem.createDownloadResumable(...).downloadAsync()`
calls). The manifest fetch (`GET /api/unit-resources/...`) is modelled by
passing the decoded `UnitResources` value; the network is modelled by an
oracle `net : String → Bool` telling whether downloading an endpoint
returns HTTP status 200. Directory creation is not observable here and is
omitted. -/

/-- Manifest of media files a unit depends on (`interface UnitResources`). -/
structure UnitResources where
  audio : List String
  images : List String
  deriving DecidableEq, Repr

/-- Download progress counter (`interface DownloadProgress`). -/
structure DownloadProgress where
  total : Nat
  completed : Nat
  deriving DecidableEq, Repr

/-- Resource type tag: the union of the literals `audio` and `image`. -/
inductive ResType where
  | audio
  | image
  deriving DecidableEq, Repr

/-- Local file URI `${FileSystem.documentDirectory}${type}/${resourceName}`
(the document-directory prefix is constant and dropped). -/
def fileUri (ty : ResType) (resourceName : String) : String :=
  (match ty with | ResType.audio => "audio/" | ResType.image => "image/") ++ resourceName

/-- Endpoint URL for a resource (`/api/word/audio/get/...` or
`/api/word/image/get/...`; the host prefix is constant and dropped). -/
def endpointFor (ty : ResType) (resourceName : String) : String :=
  (match ty with
   | ResType.audio => "api/word/audio/get/"
   | ResType.image => "api/word/image/get/") ++ resourceName

/-- Component state read and written by the download path. -/
structure ResourceState where
  downloadedResources : List String
  files : List String
  downloadProgress : Option DownloadProgress
  networkDownloads : List String
  deriving DecidableEq, Repr

/-- Embeds `downloadResource` from `lessons.tsx` (lines 348–402): skip if the
name is already in the in-memory set; else if the file exists on disk, mark
it downloaded and bump `completed`; else attempt the network download
(logged in `networkDownloads`), and on status 200 record the file, mark it
downloaded and bump `completed` (failures are logged and swallowed). -/
def downloadResource (net : String → Bool) (ty : ResType) (resourceName : String)
    (s : ResourceState) : ResourceState :=
  if s.downloadedResources.contains resourceName then
    s
  else if s.files.contains (fileUri ty resourceName) then
    { s with downloadedResources := s.downloadedResources ++ [resourceName],
             downloadProgress := s.downloadProgress.map
               (fun p => { p with completed := p.completed + 1 }) }
  else
    let s1 := { s with networkDownloads := s.networkDownloads ++ [endpointFor ty resourceName] }
    if net (endpointFor ty resourceName) then
      { s1 with files := s1.files ++ [fileUri ty resourceName],
                downloadedResources := s1.downloadedResources ++ [resourceName],
                downloadProgress := s1.downloadProgress.map
                  (fun p => { p with completed := p.completed + 1 }) }
    else
      s1

/-- Embeds `downloadUnitResources` from `lessons.tsx` (lines 405–439) up to
but not including the final `setDownloadProgress(null)`: initialise the
counter to `{total, 0}` and run every download of the manifest. The
awaited downloads update component state through functional `setState`
updates, so the parallel `Promise.all` fan-out is serialisable and modelled
as sequential folds (audio first, then images, matching the order of the
promise array). -/
def downloadUnitResourcesCore (net : String → Bool) (resources : UnitResources)
    (s : ResourceState) : ResourceState :=
  let totalResources := resources.audio.length + resources.images.length
  let s0 := { s with downloadProgress := some { total := totalResources, completed := 0 } }
  let s1 := resources.audio.foldl (fun st a => downloadResource net ResType.audio a st) s0
  resources.images.foldl (fun st i => downloadResource net ResType.image i st) s1

/-- Embeds `downloadUnitResources` in full: after all downloads settle, the
progress counter is cleared (`setDownloadProgress(null)`). -/
def downloadUnitResources (net : String → Bool) (resources : UnitResources)
    (s : ResourceState) : ResourceState :=
  { downloadUnitResourcesCore net resources s with downloadProgress := none }

/-! ## Lesson player state machine (`lesson.tsx`)

The component state driving the review / retry / celebration flow is the
record below; the transitions are the `useEffect` blocks and handlers of
`LessonContent` that touch these fields. Question contents (words, options,
grading) are irrelevant to the flow and only the identity fields of
`interface Question` are kept. -/

/-- Question record (`interface Question` in `lesson.tsx`); only the fields
the completion flow can observe are kept. -/
structure Question where
  id : Int
  questionOrder : Int
  deriving DecidableEq, Repr

/-- Entry of the accumulated wrong-answer list
(`interface IncorrectQuestion`). -/
structure IncorrectQuestion where
  question : Question
  questionId : Int
  deriving DecidableEq, Repr

/-- The `LessonContent` component state relevant to the completion flow. -/
structure LessonState where
  questions : List Question
  currentQuestionIndex : Nat
  incorrectQuestions : List IncorrectQuestion
  showReview : Bool
  isRetryingIncorrect : Bool
  originalQuestions : List Question
  showCelebration : Bool
  deriving DecidableEq, Repr

/-- Embeds the retry-completion `useEffect` of `lesson.tsx` (lines 570–582):
when a retry pass has walked past its question list, enter celebration if no
question was newly answered wrong, otherwise re-enter review; either way
exit retry mode, restore the original question list and reset the index. -/
def retryCompletionEffect (s : LessonState) : LessonState :=
  if s.isRetryingIncorrect && decide (s.questions.length ≤ s.currentQuestionIndex)
      && decide (0 < s.questions.length) then
    if s.incorrectQuestions.isEmpty then
      { s with showCelebration := true, showReview := false,
               isRetryingIncorrect := false,
               questions := s.originalQuestions, currentQuestionIndex := 0 }
    else
      { s with showReview := true,
               isRetryingIncorrect := false,
               questions := s.originalQuestions, currentQuestionIndex := 0 }
  else
    s

/-- Transition relation of the lesson player: each constructor embeds one
state-mutating handler or `useEffect` of `LessonContent` that touches the
completion-flow fields. -/
inductive Step : LessonState → LessonState → Prop where
  /-- Effect at lines 516–523: a checked incorrect answer on the current
  question appends it to `incorrectQuestions`. -/
  | recordIncorrect (s : LessonState) (q : IncorrectQuestion)
      (hquestion : s.questions.get? s.currentQuestionIndex = some q.question) :
      Step s { s with incorrectQuestions := s.incorrectQuestions ++ [q] }
  /-- Handler `handleContinue` (lines 608–612): advance to the next
  question. -/
  | continueStep (s : LessonState) :
      Step s { s with currentQuestionIndex := s.currentQuestionIndex + 1 }
  /-- Effect at lines 526–530: show the review screen once the index walks
  past the question list. -/
  | passComplete (s : LessonState)
      (hdone : s.questions.length ≤ s.currentQuestionIndex)
      (hne : 0 < s.questions.length) :
      Step s { s with showReview := true }
  /-- Handler `handleRetry` (lines 561–567): replace the active list with
  the wrong-answer subset, clear it, and start the retry pass. -/
  | retryStart (s : LessonState) :
      Step s { s with showReview := false, isRetryingIncorrect := true,
                      currentQuestionIndex := 0,
                      questions := s.incorrectQuestions.map IncorrectQuestion.question,
                      incorrectQuestions := [] }
  /-- Effect at lines 570–582 (see `retryCompletionEffect`). -/
  | retryComplete (s : LessonState)
      (hretry : s.isRetryingIncorrect = true)
      (hdone : s.questions.length ≤ s.currentQuestionIndex)
      (hne : 0 < s.questions.length) :
      Step s (retryCompletionEffect s)
  /-- Effect at lines 585–590: a first pass that reached review with no
  wrong answers goes straight to celebration. -/
  | firstPassCelebrate (s : LessonState)
      (hretry : s.isRetryingIncorrect = false)
      (hreview : s.showReview = true)
      (hempty : s.incorrectQuestions = []) :
      Step s { s with showCelebration := true, showReview := false }
  /-- Fetch success (lines 538–559): the sorted question list is loaded as
  both the active and the original list. -/
  | loadQuestions (s : LessonState) (sortedQuestions : List Question) :
      Step s { s with questions := sortedQuestions,
                      originalQuestions := sortedQuestions }

/-! ## Levenshtein-tolerant grading
(`CompleteTranslationQuestion.tsx` lines 26–67)

The source fills a `(|str2|+1) × (|str1|+1)` dynamic-programming matrix row
by row; here row i is computed from row i−1 by `levRowAux`, which walks
`str1` carrying the diagonal entry `matrix[i-1][j-1]`, the rest of the
previous row (whose head is `matrix[i-1][j]`), and the entry just written
to the left, `matrix[i][j-1]`. -/

/-- Entries `j = 1 .. |s1|` of row i of the Levenshtein matrix. -/
def levRowAux (c2 : Char) : List Char → Nat → List Nat → Nat → List Nat
  | [], _, _, _ => []
  | c1 :: cs, diag, prevRest, left =>
    let up := prevRest.headD 0
    let v := if c2 == c1 then diag
             else min (min (diag + 1) (left + 1)) (up + 1)
    v :: levRowAux c2 cs up (prevRest.drop 1) v

/-- Rows `i = 1 .. |str2|` of the Levenshtein matrix; returns the final row.
Row i starts with `matrix[i][0] = i`, as in the source initialisation
`matrix[i] = [i]`. -/
def levRowsAux (s1chars : List Char) : List Char → List Nat → Nat → List Nat
  | [], prev, _ => prev
  | c2 :: rest, prev, i =>
    levRowsAux s1chars rest (i :: levRowAux c2 s1chars (prev.headD 0) (prev.drop 1) i) (i + 1)

/-- Embeds `levenshteinDistance` from `CompleteTranslationQuestion.tsx`
(lines 26–52): row 0 is `[0, 1, .., |str1|]` and the result is
`matrix[str2.length][str1.length]`. -/
def levenshteinDistance (str1 str2 : String) : Nat :=
  let row0 := List.range (str1.length + 1)
  let lastRow := levRowsAux str1.data str2.data row0 1
  lastRow.getD str1.length 0

/-- JavaScript `String.prototype.toLowerCase()` (for the ASCII alphabet the
grading strings draw from): lowercase every character. -/
def jsToLower (s : String) : String :=
  String.mk (s.data.map Char.toLower)

/-- JavaScript `String.prototype.trim()`: strip leading and trailing
whitespace. -/
def jsTrim (s : String) : String :=
  String.mk (((s.data.dropWhile Char.isWhitespace).reverse.dropWhile Char.isWhitespace).reverse)

/-- Embeds `isAnswerCorrectWithSpellingTolerance` from
`CompleteTranslationQuestion.tsx` (lines 55–67). -/
def isAnswerCorrectWithSpellingTolerance (userInput correctAnswer : String)
    (maxDistance : Nat := 1) : Bool :=
  let userTrimmed := jsToLower (jsTrim userInput)
  let correctTrimmed := jsToLower (jsTrim correctAnswer)
  if userTrimmed == correctTrimmed then
    true
  else
    decide (levenshteinDistance userTrimmed correctTrimmed ≤ maxDistance)

/-! ## Helper lemmas about the JavaScript array primitives -/

theorem foldl_min_le (as : List Int) (a : Int) :
    as.foldl min a ≤ a ∧ ∀ x ∈ as, as.foldl min a ≤ x := by
  induction as generalizing a with
  | nil => exact ⟨le_refl a, by intro x hx; cases hx⟩
  | cons b bs ih =>
    have h := ih (min a b)
    refine ⟨le_trans h.1 (min_le_left a b), ?_⟩
    intro x hx
    rcases List.mem_cons.mp hx with rfl | hx
    · exact le_trans h.1 (min_le_right a x)
    · exact h.2 x hx

theorem foldl_min_mem (as : List Int) (a : Int) :
    as.foldl min a = a ∨ as.foldl min a ∈ as := by
  induction as generalizing a with
  | nil => exact Or.inl rfl
  | cons b bs ih =>
    rcases ih (min a b) with h | h
    · rcases min_choice a b with hab | hab
      · exact Or.inl (by rw [List.foldl_cons, h, hab])
      · exact Or.inr (by rw [List.foldl_cons, h, hab]; exact List.mem_cons_self b bs)
    · exact Or.inr (List.mem_cons_of_mem b h)

theorem jsMinList_spec (a : Int) (as : List Int) :
    ∃ m, jsMinList (a :: as) = some m ∧ m ∈ a :: as ∧ ∀ x ∈ a :: as, m ≤ x := by
  refine ⟨as.foldl min a, rfl, ?_, ?_⟩
  · rcases foldl_min_mem as a with h | h
    · rw [h]; exact List.mem_cons_self a as
    · exact List.mem_cons_of_mem a h
  · intro x hx
    rcases List.mem_cons.mp hx with h | h
    · rw [h]; exact (foldl_min_le as a).1
    · exact (foldl_min_le as a).2 x h

theorem jsMinList_eq_some (l : List Int) (m : Int)
    (hmem : m ∈ l) (hmin : ∀ x ∈ l, m ≤ x) : jsMinList l = some m := by
  cases l with
  | nil => cases hmem
  | cons a as =>
    obtain ⟨m0, heq, hm0, hle⟩ := jsMinList_spec a as
    have h1 : m ≤ m0 := hmin m0 hm0
    have h2 : m0 ≤ m := hle m hmem
    rw [heq, le_antisymm h2 h1]

theorem foldl_reduceMin_spec (f : α → Int) (xs : List α) (x : α) :
    (xs.foldl (fun lowest current => if f current < f lowest then current else lowest) x = x ∨
      xs.foldl (fun lowest current => if f current < f lowest then current else lowest) x ∈ xs) ∧
    f (xs.foldl (fun lowest current => if f current < f lowest then current else lowest) x) ≤ f x ∧
    ∀ y ∈ xs, f (xs.foldl (fun lowest current => if f current < f lowest then current else lowest) x) ≤ f y := by
  induction xs generalizing x with
  | nil =>
    refine ⟨Or.inl rfl, le_refl _, ?_⟩
    intro y hy; cases hy
  | cons b bs ih =>
    have h := ih (if f b < f x then b else x)
    refine ⟨?_, ?_, ?_⟩
    · rcases h.1 with heq | hmem
      · rw [List.foldl_cons, heq]
        by_cases hb : f b < f x
        · rw [if_pos hb]
          exact Or.inr (List.mem_cons_self b bs)
        · rw [if_neg hb]
          exact Or.inl rfl
      · exact Or.inr (List.mem_cons_of_mem b hmem)
    · refine le_trans h.2.1 ?_
      by_cases hb : f b < f x
      · rw [if_pos hb]; exact le_of_lt hb
      · rw [if_neg hb]
    · intro y hy
      rcases List.mem_cons.mp hy with hyb | hy
      · refine le_trans h.2.1 ?_
        rw [hyb]
        by_cases hb : f b < f x
        · rw [if_pos hb]
        · rw [if_neg hb]
          exact le_of_not_lt hb
      · exact h.2.2 y hy

theorem jsReduceMin_eq_some (f : α → Int) (l : List α) (u : α)
    (hn : (l.map f).Nodup) (hu : u ∈ l) (hmin : ∀ y ∈ l, f u ≤ f y) :
    jsReduceMin f l = some u := by
  cases l with
  | nil => cases hu
  | cons x xs =>
    obtain ⟨hmem, hlex, hle⟩ := foldl_reduceMin_spec f xs x
    set r := xs.foldl (fun lowest current => if f current < f lowest then current else lowest) x with hr
    have hrmem : r ∈ x :: xs := by
      rcases hmem with h | h
      · rw [h]; exact List.mem_cons_self x xs
      · exact List.mem_cons_of_mem x h
    have hfru : f r = f u := by
      have h1 : f u ≤ f r := hmin r hrmem
      have h2 : f r ≤ f u := by
        rcases List.mem_cons.mp hu with rfl | h
        · exact hlex
        · exact hle u h
      exact le_antisymm h2 h1
    have : r = u := List.inj_on_of_nodup_map hn hrmem hu hfru
    simp only [jsReduceMin, ← hr, this]

theorem find?_key {α : Type} (key : α → Int) (k : Int) (l : List α) (x : α)
    (hn : (l.map key).Nodup) (hx : x ∈ l) (hk : key x = k) :
    l.find? (fun y => key y == k) = some x := by
  induction l with
  | nil => cases hx
  | cons a as ih =>
    have hna : key a ∉ as.map key := by
      have := hn
      simp only [List.map_cons, List.nodup_cons] at this
      exact this.1
    rcases List.mem_cons.mp hx with rfl | hmem
    · rw [List.find?_cons_of_pos]
      simp [hk]
    · have hne : ¬(key a == k) = true := by
        intro h
        have hak : key a = k := by simpa using h
        exact hna (by rw [hak, ← hk]; exact List.mem_map_of_mem key hmem)
      rw [List.find?_cons_of_neg _ (by simpa using hne)]
      exact ih (by simp only [List.map_cons, List.nodup_cons] at hn; exact hn.2) hmem

theorem findCompleted_iff (learnerProgress : List LessonProgress) (lid : Int)
    (hn : (learnerProgress.map LessonProgress.lessonId).Nodup) :
    (match learnerProgress.find? (fun p => p.lessonId == lid) with
      | some progress => progress.status == Status.completed
      | none => false) = true
    ↔ ∃ p ∈ learnerProgress, p.lessonId = lid ∧ p.status = Status.completed := by
  constructor
  · intro h
    cases hfind : learnerProgress.find? (fun p => p.lessonId == lid) with
    | none => rw [hfind] at h; cases h
    | some pr =>
      rw [hfind] at h
      refine ⟨pr, List.mem_of_find?_eq_some hfind, ?_, ?_⟩
      · have := List.find?_some hfind
        simpa using this
      · simpa using h
  · rintro ⟨p, hp, hpid, hps⟩
    rw [find?_key LessonProgress.lessonId lid learnerProgress p hn hp hpid]
    simpa using hps

/-! ## C1: unit lock rule -/

/-- C1. Unit lock rule: in a catalog with distinct unit ids, distinct unit
orders and one progress record per lesson, `isUnitLocked` reports a unit
unlocked exactly when it has the globally minimum `unitOrder`, or a unit
with `unitOrder` one less exists and every lesson of that unit has a
progress record with status completed; in particular when no unit with
`unitOrder = U.unitOrder - 1` exists a non-minimal U is locked. -/
theorem unit_lock_rule (units : List Unit) (learnerProgress : List LessonProgress)
    (u : Unit) (hu : u ∈ units)
    (hids : (units.map Unit.id).Nodup)
    (hords : (units.map Unit.unitOrder).Nodup)
    (hprog : (learnerProgress.map LessonProgress.lessonId).Nodup) :
    isUnitLocked units learnerProgress u.id = false ↔
      ((∀ v ∈ units, u.unitOrder ≤ v.unitOrder) ∨
        ∃ p ∈ units, p.unitOrder = u.unitOrder - 1 ∧
          ∀ l ∈ p.lessons, ∃ pr ∈ learnerProgress,
            pr.lessonId = l.id ∧ pr.status = Status.completed) := by
  have hfindu : units.find? (fun v => v.id == u.id) = some u :=
    find?_key Unit.id u.id units u hids hu rfl
  by_cases hmin : ∀ v ∈ units, u.unitOrder ≤ v.unitOrder
  · have hm : jsMinList (units.map (fun v => v.unitOrder)) = some u.unitOrder := by
      apply jsMinList_eq_some
      · exact List.mem_map_of_mem _ hu
      · intro x hx
        obtain ⟨v, hv, rfl⟩ := List.mem_map.mp hx
        exact hmin v hv
    simp only [isUnitLocked, hfindu, hm, beq_self_eq_true, if_true]
    exact ⟨fun _ => Or.inl hmin, fun _ => trivial⟩
  · have hne : ¬(some u.unitOrder == jsMinList (units.map (fun v => v.unitOrder))) = true := by
      intro h
      cases lu : units.map (fun v => v.unitOrder) with
      | nil =>
        have : u.unitOrder ∈ units.map (fun v => v.unitOrder) := List.mem_map_of_mem _ hu
        rw [lu] at this; cases this
      | cons a as =>
        obtain ⟨m, heq, _, hle⟩ := jsMinList_spec a as
        rw [lu, heq] at h
        have hum : u.unitOrder = m := by simpa using h
        apply hmin
        intro v hv
        rw [hum]
        exact hle v.unitOrder (by rw [← lu]; exact List.mem_map_of_mem _ hv)
    simp only [isUnitLocked, hfindu, hne]
    cases hfindp : units.find? (fun v => v.unitOrder == u.unitOrder - 1) with
    | none =>
      simp only [Bool.false_eq_true, if_false]
      constructor
      · intro h; cases h
      · rintro (h | ⟨p, hp, hpord, _⟩)
        · exact absurd h hmin
        · have := List.find?_eq_none.mp hfindp p hp
          simp [hpord] at this
    | some p =>
      have hpmem : p ∈ units := List.mem_of_find?_eq_some hfindp
      have hpord : p.unitOrder = u.unitOrder - 1 := by
        have := List.find?_some hfindp
        simpa using this
      simp only [Bool.false_eq_true, if_false, Bool.not_eq_false', List.all_eq_true]
      constructor
      · intro h
        refine Or.inr ⟨p, hpmem, hpord, ?_⟩
        intro l hl
        exact (findCompleted_iff learnerProgress l.id hprog).mp (h l hl)
      · rintro (h | ⟨p', hp', hpord', hcomp⟩)
        · exact absurd h hmin
        · have hpp : p' = p := by
            apply List.inj_on_of_nodup_map hords hp' hpmem
            rw [hpord, hpord']
          rw [hpp] at hcomp
          intro l hl
          exact (findCompleted_iff learnerProgress l.id hprog).mpr (hcomp l hl)

/-! ## Concrete demo data for the witnesses -/

/-- Demo lesson 1 of unit 1. -/
def demoL1 : Lesson := ⟨101, 1, 10, 1⟩

/-- Demo lesson 2 of unit 1. -/
def demoL2 : Lesson := ⟨102, 2, 10, 1⟩

/-- Demo lesson 1 of unit 2. -/
def demoL3 : Lesson := ⟨201, 1, 20, 2⟩

/-- Demo lesson 2 of unit 2. -/
def demoL4 : Lesson := ⟨202, 2, 20, 2⟩

/-- Demo unit 1 (order 1). -/
def demoU1 : Unit := ⟨10, [demoL1, demoL2], 1⟩

/-- Demo unit 2 (order 2). -/
def demoU2 : Unit := ⟨20, [demoL3, demoL4], 2⟩

/-- Demo catalog of two units with two lessons each. -/
def demoUnits : List Unit := [demoU1, demoU2]

/-- Progress with every lesson of unit 1 completed. -/
def demoProgressU1 : List LessonProgress :=
  [⟨1, 101, 10, Status.completed⟩, ⟨2, 102, 10, Status.completed⟩]

/-- C1 witness: in the demo catalog with unit 1 fully completed, unit 2 is
reported unlocked, instantiating `unit_lock_rule` at concrete input. -/
theorem unit_lock_rule_witness :
    isUnitLocked demoUnits demoProgressU1 demoU2.id = false :=
  (unit_lock_rule demoUnits demoProgressU1 demoU2 (by decide) (by decide)
      (by decide) (by decide)).mpr
    (Or.inr ⟨demoU1, by decide, by decide, by decide⟩)

/-! ## C4: free-tier daily cap -/

/-- C4. Free-tier daily cap: a free learner whose daily count has date equal
to today and count at least 3 sees every lesson locked, for every catalog,
progress list and lesson coordinates. -/
theorem free_tier_daily_cap (learner : Learner)
    (hfree : learner.subscription = Subscription.free)
    (cnt : DailyLessonCount) (today : String)
    (units : List Unit) (learnerProgress : List LessonProgress)
    (unitId lessonId : Int)
    (hdate : cnt.date = today) (hcount : cnt.count ≥ 3) :
    isLessonLocked (some learner) cnt today units learnerProgress unitId lessonId = true := by
  have hcond : (cnt.date == today && decide (cnt.count ≥ 3)) = true := by
    simp [hdate, hcount]
  cases hw : contentWallHit units unitId lessonId <;>
    simp [isLessonLocked, subscriptionIsFree, hfree, hcond, hw]

/-- C4 witness: in the demo catalog, a free learner at the cap is locked out
of the very first lesson even with unit 1 completed. -/
theorem free_tier_daily_cap_witness :
    isLessonLocked (some ⟨Subscription.free⟩) ⟨3, "2024-01-02"⟩ "2024-01-02"
      demoUnits demoProgressU1 10 101 = true :=
  free_tier_daily_cap ⟨Subscription.free⟩ rfl ⟨3, "2024-01-02"⟩ "2024-01-02"
    demoUnits demoProgressU1 10 101 rfl (by decide)

/-! ## C8: free-tier content wall -/

/-- C8. Free-tier content wall: for a free learner, a lesson found in a unit
with `unitOrder ≥ 3` whose own `lessonOrder ≥ 2` is locked, regardless of
the progress records and of the daily counter. -/
theorem free_tier_content_wall (learner : Learner)
    (hfree : learner.subscription = Subscription.free)
    (cnt : DailyLessonCount) (today : String)
    (units : List Unit) (learnerProgress : List LessonProgress)
    (u : Unit) (l : Lesson)
    (hids : (units.map Unit.id).Nodup) (hu : u ∈ units)
    (hlids : (u.lessons.map Lesson.id).Nodup) (hl : l ∈ u.lessons)
    (hord : u.unitOrder ≥ 3) (hlord : l.lessonOrder ≥ 2) :
    isLessonLocked (some learner) cnt today units learnerProgress u.id l.id = true := by
  have hfindu : units.find? (fun v => v.id == u.id) = some u :=
    find?_key Unit.id u.id units u hids hu rfl
  have hfindl : u.lessons.find? (fun x => x.id == l.id) = some l :=
    find?_key Lesson.id l.id u.lessons l hlids hl rfl
  have hwall : contentWallHit units u.id l.id = true := by
    simp only [contentWallHit, hfindu, if_pos hord, hfindl]
    simpa using hlord
  simp [isLessonLocked, subscriptionIsFree, hfree, hwall]

/-- C8 witness: a free learner is walled out of lesson 2 of a unit with
order 3 in a one-unit catalog, instantiating `free_tier_content_wall`. -/
theorem free_tier_content_wall_witness :
    isLessonLocked (some ⟨Subscription.free⟩) ⟨0, ""⟩ "2024-01-02"
      [⟨30, [⟨301, 1, 30, 3⟩, ⟨302, 2, 30, 3⟩], 3⟩] []
      (Unit.id ⟨30, [⟨301, 1, 30, 3⟩, ⟨302, 2, 30, 3⟩], 3⟩)
      (Lesson.id ⟨302, 2, 30, 3⟩) = true :=
  free_tier_content_wall ⟨Subscription.free⟩ rfl ⟨0, ""⟩ "2024-01-02"
    [⟨30, [⟨301, 1, 30, 3⟩, ⟨302, 2, 30, 3⟩], 3⟩] []
    ⟨30, [⟨301, 1, 30, 3⟩, ⟨302, 2, 30, 3⟩], 3⟩ ⟨302, 2, 30, 3⟩
    (by decide) (by decide) (by decide) (by decide) (by decide) (by decide)

/-! ## C2: cold-start rule -/

theorem isUnitLocked_false_of_min (units : List Unit) (learnerProgress : List LessonProgress)
    (v : Unit) (hids : (units.map Unit.id).Nodup) (hv : v ∈ units)
    (hmin : ∀ w ∈ units, v.unitOrder ≤ w.unitOrder) :
    isUnitLocked units learnerProgress v.id = false := by
  have hfind : units.find? (fun w => w.id == v.id) = some v :=
    find?_key Unit.id v.id units v hids hv rfl
  have hm : jsMinList (units.map (fun w => w.unitOrder)) = some v.unitOrder := by
    apply jsMinList_eq_some
    · exact List.mem_map_of_mem _ hv
    · intro x hx
      obtain ⟨w, hw, rfl⟩ := List.mem_map.mp hx
      exact hmin w hw
  simp [isUnitLocked, hfind, hm]

theorem isUnitLocked_true_of_not_min (units : List Unit) (v : Unit)
    (hids : (units.map Unit.id).Nodup) (hv : v ∈ units)
    (hnonempty : ∀ w ∈ units, w.lessons ≠ [])
    (hnotmin : some v.unitOrder ≠ jsMinList (units.map (fun w => w.unitOrder))) :
    isUnitLocked units [] v.id = true := by
  have hfind : units.find? (fun w => w.id == v.id) = some v :=
    find?_key Unit.id v.id units v hids hv rfl
  have hne : (some v.unitOrder == jsMinList (units.map (fun w => w.unitOrder))) = false :=
    beq_eq_false_iff_ne.mpr hnotmin
  simp only [isUnitLocked, hfind, hne, Bool.false_eq_true, if_false]
  cases hfp : units.find? (fun w => w.unitOrder == v.unitOrder - 1) with
  | none => rfl
  | some w =>
    have hwmem : w ∈ units := List.mem_of_find?_eq_some hfp
    cases hwl : w.lessons with
    | nil => exact absurd hwl (hnonempty w hwmem)
    | cons c cs => simp [hwl]

theorem isLessonLocked_true_of_core (learner : Option Learner) (cnt : DailyLessonCount)
    (today : String) (units : List Unit) (learnerProgress : List LessonProgress)
    (unitId lessonId : Int)
    (h : isLessonLockedCore units learnerProgress unitId lessonId = true) :
    isLessonLocked learner cnt today units learnerProgress unitId lessonId = true := by
  cases hfree : subscriptionIsFree learner with
  | false => simp [isLessonLocked, hfree, h]
  | true =>
    cases hw : contentWallHit units unitId lessonId with
    | true => simp [isLessonLocked, hfree, hw]
    | false =>
      cases hcap : (cnt.date == today && decide (cnt.count ≥ 3)) with
      | true => simp [isLessonLocked, hfree, hw, hcap]
      | false => simp [isLessonLocked, hfree, hw, hcap, h]

/-- C2 (amended). Cold-start rule for a well-formed catalog, restricted to
learners for whom the free-tier gates do not fire on the minimum lesson
(a non-free or absent learner always qualifies): with an empty progress
list, a catalog lesson is unlocked exactly when it is the minimum-order
lesson of the minimum-order unit. -/
theorem cold_start_rule (learner : Option Learner) (cnt : DailyLessonCount) (today : String)
    (units : List Unit) (u : Unit) (lmin : Lesson) (v : Unit) (lv : Lesson)
    (hids : (units.map Unit.id).Nodup)
    (hords : (units.map Unit.unitOrder).Nodup)
    (hnonempty : ∀ w ∈ units, w.lessons ≠ [])
    (hlids : (u.lessons.map Lesson.id).Nodup)
    (hlords : (u.lessons.map Lesson.lessonOrder).Nodup)
    (hu : u ∈ units) (humin : ∀ w ∈ units, u.unitOrder ≤ w.unitOrder)
    (hlmem : lmin ∈ u.lessons) (hlmin : ∀ x ∈ u.lessons, lmin.lessonOrder ≤ x.lessonOrder)
    (hgate : subscriptionIsFree learner = true →
      (cnt.date ≠ today ∨ cnt.count < 3) ∧ (u.unitOrder < 3 ∨ lmin.lessonOrder < 2))
    (hv : v ∈ units) (hlv : lv ∈ v.lessons) :
    isLessonLocked learner cnt today units [] v.id lv.id = false ↔ v = u ∧ lv = lmin := by
  have hredU : jsReduceMin (fun w => w.unitOrder) units = some u :=
    jsReduceMin_eq_some _ units u hords hu humin
  have hredL : jsReduceMin (fun x => x.lessonOrder) u.lessons = some lmin :=
    jsReduceMin_eq_some _ u.lessons lmin hlords hlmem hlmin
  by_cases hvu : v = u
  · subst hvu
    have hUnitUnlocked : isUnitLocked units [] v.id = false :=
      isUnitLocked_false_of_min units [] v hids hv humin
    by_cases hlveq : lv = lmin
    · subst hlveq
      have hcore : isLessonLockedCore units [] v.id lv.id = false := by
        simp [isLessonLockedCore, hUnitUnlocked, hredU, hredL]
      simp only [eq_self_iff_true, and_self, iff_true]
      by_cases hfree : subscriptionIsFree learner = true
      · obtain ⟨hcap, hwall⟩ := hgate hfree
        have hfindv : units.find? (fun w => w.id == v.id) = some v :=
          find?_key Unit.id v.id units v hids hv rfl
        have hcap' : (cnt.date == today && decide (cnt.count ≥ 3)) = false := by
          rcases hcap with h | h
          · simp [beq_eq_false_iff_ne.mpr h]
          · simp [decide_eq_false (not_le.mpr h)]
        have hwallf : contentWallHit units v.id lv.id = false := by
          simp only [contentWallHit, hfindv]
          rcases hwall with h | h
          · rw [if_neg (not_le.mpr h)]
          · by_cases ho : v.unitOrder ≥ 3
            · have hfindlv : v.lessons.find? (fun x => x.id == lv.id) = some lv :=
                find?_key Lesson.id lv.id v.lessons lv hlids hlv rfl
              rw [if_pos ho, hfindlv]
              exact decide_eq_false (not_le.mpr h)
            · rw [if_neg ho]
        simp [isLessonLocked, hfree, hwallf, hcap', hcore]
      · have hfree' : subscriptionIsFree learner = false := by
          cases hsf : subscriptionIsFree learner
          · rfl
          · exact absurd hsf hfree
        simp [isLessonLocked, hfree', hcore]
    · have hlvne : lv.id ≠ lmin.id := by
        intro hcontra
        exact hlveq (List.inj_on_of_nodup_map hlids hlv hlmem hcontra)
      have hcore : isLessonLockedCore units [] v.id lv.id = true := by
        simp [isLessonLockedCore, hUnitUnlocked, hredU, hredL, hlvne]
      rw [isLessonLocked_true_of_core learner cnt today units [] v.id lv.id hcore]
      simp [hlveq]
  · have hordne : some v.unitOrder ≠ jsMinList (units.map (fun w => w.unitOrder)) := by
      have hm : jsMinList (units.map (fun w => w.unitOrder)) = some u.unitOrder := by
        apply jsMinList_eq_some
        · exact List.mem_map_of_mem _ hu
        · intro x hx
          obtain ⟨w, hw, rfl⟩ := List.mem_map.mp hx
          exact humin w hw
      rw [hm]
      intro hcontra
      have : v.unitOrder = u.unitOrder := by simpa using hcontra
      exact hvu (List.inj_on_of_nodup_map hords hv hu this)
    have hUnitLocked : isUnitLocked units [] v.id = true :=
      isUnitLocked_true_of_not_min units v hids hv hnonempty hordne
    have hcore : isLessonLockedCore units [] v.id lv.id = true := by
      simp [isLessonLockedCore, hUnitLocked]
    rw [isLessonLocked_true_of_core learner cnt today units [] v.id lv.id hcore]
    simp [hvu]

/-- C2 witness: a premium learner with no progress finds lesson 1 of unit 1
unlocked and lesson 1 of unit 2 locked in the demo catalog, instantiating
`cold_start_rule` at concrete input on both sides of the equivalence. -/
theorem cold_start_rule_witness :
    isLessonLocked (some ⟨Subscription.premium⟩) ⟨0, ""⟩ "2024-01-02"
        demoUnits [] demoU1.id demoL1.id = false ∧
    isLessonLocked (some ⟨Subscription.premium⟩) ⟨0, ""⟩ "2024-01-02"
        demoUnits [] demoU2.id demoL3.id = true := by
  constructor
  · exact (cold_start_rule (some ⟨Subscription.premium⟩) ⟨0, ""⟩ "2024-01-02"
      demoUnits demoU1 demoL1 demoU1 demoL1 (by decide) (by decide) (by decide)
      (by decide) (by decide) (by decide) (by decide) (by decide) (by decide)
      (by intro h; cases h) (by decide) (by decide)).mpr ⟨rfl, rfl⟩
  · have h := (cold_start_rule (some ⟨Subscription.premium⟩) ⟨0, ""⟩ "2024-01-02"
      demoUnits demoU1 demoL1 demoU2 demoL3 (by decide) (by decide) (by decide)
      (by decide) (by decide) (by decide) (by decide) (by decide) (by decide)
      (by intro h; cases h) (by decide) (by decide))
    cases hlock : isLessonLocked (some ⟨Subscription.premium⟩) ⟨0, ""⟩ "2024-01-02"
        demoUnits [] demoU2.id demoL3.id
    · have := h.mp hlock
      exact absurd this.1 (by decide)
    · rfl

/-- List of catalog coordinate pairs `(unit id, lesson id)` whose lesson
evaluates unlocked under `isLessonLocked`; used to state the cold-start
counterexample. -/
def unlockedLessons (learner : Option Learner) (cnt : DailyLessonCount) (today : String)
    (units : List Unit) (learnerProgress : List LessonProgress) : List (Int × Int) :=
  (units.flatMap (fun u => u.lessons.map (fun l => (u.id, l.id)))).filter
    (fun p => !(isLessonLocked learner cnt today units learnerProgress p.1 p.2))

/-- C2 counterexample: a free learner whose daily counter is at the cap for
today has an empty progress list, yet zero of the four demo-catalog lessons
evaluate unlocked — not exactly one, refuting the claim as stated for
arbitrary learners. -/
theorem cold_start_counterexample :
    (unlockedLessons (some ⟨Subscription.free⟩) ⟨3, "2024-01-02"⟩ "2024-01-02"
        demoUnits []).length = 0 ∧
    (demoUnits.flatMap (fun u => u.lessons.map (fun l => (u.id, l.id)))).length = 4 := by
  decide

/-! ## C5, C9, C10: daily quota semantics -/

/-- C5. Daily quota read semantics: `checkDailyLessonLimit` returns
unlimited (`-1` sentinel) for a premium learner; for a free learner it
returns 3 remaining on a fresh day (stored date differs from today) and
`3 - count` remaining otherwise, with `canTakeLesson` exactly when the
remainder is positive; in particular a counter `(2, 2024-01-01)` read on
`2024-01-02` yields 3 remaining, not 1. -/
theorem check_daily_limit_semantics (cnt : DailyLessonCount) (today : String) :
    (∀ L : Learner, L.subscription = Subscription.premium →
      (checkDailyLessonLimit (some L) cnt today).1 =
        { canTakeLesson := true, remainingLessons := -1 })
  ∧ (∀ L : Learner, L.subscription = Subscription.free → cnt.date ≠ today →
      (checkDailyLessonLimit (some L) cnt today).1 =
        { canTakeLesson := true, remainingLessons := 3 })
  ∧ (∀ L : Learner, L.subscription = Subscription.free → cnt.date = today →
      (checkDailyLessonLimit (some L) cnt today).1 =
        { canTakeLesson := decide (3 - cnt.count > 0), remainingLessons := 3 - cnt.count })
  ∧ (checkDailyLessonLimit (some ⟨Subscription.free⟩) ⟨2, "2024-01-01"⟩ "2024-01-02").1 =
      { canTakeLesson := true, remainingLessons := 3 } := by
  refine ⟨?_, ?_, ?_, ?_⟩
  · intro L hL
    simp [checkDailyLessonLimit, subscriptionIsFree, hL]
  · intro L hL hd
    simp [checkDailyLessonLimit, subscriptionIsFree, hL, hd]
  · intro L hL hd
    simp [checkDailyLessonLimit, subscriptionIsFree, hL, hd]
  · decide

/-- C5 witness: `check_daily_limit_semantics` applied to the counter
`(2, 2024-01-01)` read on `2024-01-02` for a concrete free learner. -/
theorem check_daily_limit_semantics_witness :
    (checkDailyLessonLimit (some ⟨Subscription.free⟩) ⟨2, "2024-01-01"⟩ "2024-01-02").1 =
      { canTakeLesson := true, remainingLessons := 3 } :=
  (check_daily_limit_semantics ⟨2, "2024-01-01"⟩ "2024-01-02").2.1
    ⟨Subscription.free⟩ rfl (by decide)

/-- C9. Quota read path is write-free: `checkDailyLessonLimit` never writes
the persisted `dailyLessonCount` entry (its storage-write component is
always `none`, even on the fresh-day branch); only
`incrementDailyLessonCount` persists, writing count + 1 with today when the
counter date equals today and resetting to 1 with today otherwise, and only
for a free learner. -/
theorem quota_write_discipline (learner : Option Learner) (cnt : DailyLessonCount)
    (today : String) :
    (checkDailyLessonLimit learner cnt today).2.2 = none
  ∧ (subscriptionIsFree learner = true →
      (incrementDailyLessonCount learner cnt today).2 =
        some { count := (if cnt.date == today then cnt.count + 1 else 1), date := today })
  ∧ (subscriptionIsFree learner = false →
      (incrementDailyLessonCount learner cnt today) = (cnt, none)) := by
  refine ⟨?_, ?_, ?_⟩
  · unfold checkDailyLessonLimit
    split
    · rfl
    · split
      · rfl
      · rfl
  · intro hfree
    simp [incrementDailyLessonCount, hfree]
  · intro hfree
    simp [incrementDailyLessonCount, hfree]

/-- C9 witness: `quota_write_discipline` at a concrete free learner and
counter, showing the read performs no write and the increment writes 3. -/
theorem quota_write_discipline_witness :
    (checkDailyLessonLimit (some ⟨Subscription.free⟩) ⟨2, "2024-01-01"⟩ "2024-01-02").2.2 = none
  ∧ (incrementDailyLessonCount (some ⟨Subscription.free⟩) ⟨2, "2024-01-02"⟩ "2024-01-02").2 =
      some { count := 3, date := "2024-01-02" } := by
  constructor
  · exact (quota_write_discipline (some ⟨Subscription.free⟩) ⟨2, "2024-01-01"⟩ "2024-01-02").1
  · have h := (quota_write_discipline (some ⟨Subscription.free⟩) ⟨2, "2024-01-02"⟩
      "2024-01-02").2.1 (by decide)
    simpa using h

/-- C10. Implicit fail-open gating: an absent learner record is gated
exactly like a premium learner — `checkDailyLessonLimit` returns the
unlimited sentinel and performs no state change, and `isLessonLocked`
coincides with its value for a premium learner on all inputs. -/
theorem missing_learner_fail_open (cnt : DailyLessonCount) (today : String)
    (units : List Unit) (learnerProgress : List LessonProgress)
    (unitId lessonId : Int) (L : Learner)
    (hprem : L.subscription = Subscription.premium) :
    checkDailyLessonLimit none cnt today =
      ({ canTakeLesson := true, remainingLessons := -1 }, cnt, none)
  ∧ checkDailyLessonLimit none cnt today = checkDailyLessonLimit (some L) cnt today
  ∧ isLessonLocked none cnt today units learnerProgress unitId lessonId =
      isLessonLocked (some L) cnt today units learnerProgress unitId lessonId := by
  have h1 : subscriptionIsFree none = false := rfl
  have h2 : subscriptionIsFree (some L) = false := by
    simp [subscriptionIsFree, hprem]
  refine ⟨?_, ?_, ?_⟩
  · simp [checkDailyLessonLimit, h1]
  · simp [checkDailyLessonLimit, h1, h2]
  · simp [isLessonLocked, h1, h2]

/-- C10 witness: `missing_learner_fail_open` instantiated on the demo
catalog at the cap counter, where a free learner would have been locked. -/
theorem missing_learner_fail_open_witness :
    checkDailyLessonLimit none ⟨3, "2024-01-02"⟩ "2024-01-02" =
      ({ canTakeLesson := true, remainingLessons := -1 }, ⟨3, "2024-01-02"⟩, none)
  ∧ isLessonLocked none ⟨3, "2024-01-02"⟩ "2024-01-02" demoUnits demoProgressU1 10 101 =
      isLessonLocked (some ⟨Subscription.premium⟩) ⟨3, "2024-01-02"⟩ "2024-01-02"
        demoUnits demoProgressU1 10 101 := by
  have h := missing_learner_fail_open ⟨3, "2024-01-02"⟩ "2024-01-02" demoUnits
    demoProgressU1 10 101 ⟨Subscription.premium⟩ rfl
  exact ⟨h.1, h.2.2⟩

/-! ## C7: Levenshtein-tolerant grading -/

/-- C7. Levenshtein-tolerant grading: the complete-translation checker
accepts exactly the inputs that, after trimming and lowercasing both
strings, are equal to the correct answer or within edit distance 1 of it
(with the default tolerance 1); `hols` for `hola` (distance 1) is accepted
and `ho` for `hola` (distance 2) is rejected. -/
theorem levenshtein_tolerant_grading :
    (∀ userInput correctAnswer : String,
      isAnswerCorrectWithSpellingTolerance userInput correctAnswer = true ↔
        (jsToLower (jsTrim userInput) = jsToLower (jsTrim correctAnswer) ∨
          levenshteinDistance (jsToLower (jsTrim userInput)) (jsToLower (jsTrim correctAnswer)) ≤ 1))
  ∧ isAnswerCorrectWithSpellingTolerance "hols" "hola" = true
  ∧ levenshteinDistance "hols" "hola" = 1
  ∧ isAnswerCorrectWithSpellingTolerance "ho" "hola" = false
  ∧ levenshteinDistance "ho" "hola" = 2 := by
  refine ⟨?_, by decide, by decide, by decide, by decide⟩
  intro u a
  by_cases h : (jsToLower (jsTrim u) == jsToLower (jsTrim a)) = true
  · constructor
    · intro _
      exact Or.inl (by simpa using h)
    · intro _
      simp [isAnswerCorrectWithSpellingTolerance, h]
  · have hne : jsToLower (jsTrim u) ≠ jsToLower (jsTrim a) := by
      intro hcontra
      exact h (by simp [hcontra])
    constructor
    · intro hcorrect
      refine Or.inr ?_
      simp only [isAnswerCorrectWithSpellingTolerance, h, Bool.false_eq_true, if_false] at hcorrect
      simpa using hcorrect
    · rintro (hcontra | hdist)
      · exact absurd hcontra hne
      · simp [isAnswerCorrectWithSpellingTolerance, h, hdist]

/-! ## C6: lesson player completion flow -/

/-- C6. Lesson player completion: along every transition of the player,
celebration is only ever entered with an empty accumulated
incorrect-question list; and when a retry pass finishes, zero newly
incorrect questions send the machine to celebration while at least one
sends it back to review, in both cases restoring the original full question
list as the active reference set and leaving retry mode. -/
theorem lesson_player_completion (s t : LessonState) :
    (Step s t → s.showCelebration = false → t.showCelebration = true →
      s.incorrectQuestions = [] ∧ t.incorrectQuestions = [])
  ∧ (s.isRetryingIncorrect = true → s.questions.length ≤ s.currentQuestionIndex →
      0 < s.questions.length →
      ((s.incorrectQuestions = [] →
          (retryCompletionEffect s).showCelebration = true ∧
          (retryCompletionEffect s).showReview = false)
        ∧ (s.incorrectQuestions ≠ [] →
            (retryCompletionEffect s).showReview = true ∧
            (retryCompletionEffect s).showCelebration = s.showCelebration)
        ∧ (retryCompletionEffect s).questions = s.originalQuestions
        ∧ (retryCompletionEffect s).isRetryingIncorrect = false)) := by
  have heffect : ∀ u : LessonState, u.isRetryingIncorrect = true →
      u.questions.length ≤ u.currentQuestionIndex → 0 < u.questions.length →
      retryCompletionEffect u =
        (if u.incorrectQuestions.isEmpty then
          { u with showCelebration := true, showReview := false,
                   isRetryingIncorrect := false,
                   questions := u.originalQuestions, currentQuestionIndex := 0 }
        else
          { u with showReview := true,
                   isRetryingIncorrect := false,
                   questions := u.originalQuestions, currentQuestionIndex := 0 }) := by
    intro u h1 h2 h3
    unfold retryCompletionEffect
    rw [if_pos]
    simp [h1, h2, h3]
  constructor
  · intro hstep hcel hcel'
    cases hstep with
    | recordIncorrect q hq =>
      rw [hcel] at hcel'
      cases hcel'
    | continueStep =>
      rw [hcel] at hcel'
      cases hcel'
    | passComplete hdone hne =>
      rw [hcel] at hcel'
      cases hcel'
    | retryStart =>
      rw [hcel] at hcel'
      cases hcel'
    | retryComplete hretry hdone hne =>
      have heq := heffect s hretry hdone hne
      by_cases hempty : s.incorrectQuestions.isEmpty = true
      · have hnil : s.incorrectQuestions = [] := List.isEmpty_iff.mp hempty
        rw [heq, if_pos hempty]
        exact ⟨hnil, hnil⟩
      · rw [heq, if_neg hempty] at hcel'
        have hcontra : s.showCelebration = true := hcel'
        rw [hcel] at hcontra
        cases hcontra
    | firstPassCelebrate hretry hreview hempty =>
      exact ⟨hempty, by simpa using hempty⟩
    | loadQuestions qs =>
      rw [hcel] at hcel'
      cases hcel'
  · intro hretry hdone hne
    rw [heffect s hretry hdone hne]
    refine ⟨?_, ?_, ?_, ?_⟩
    · intro hempty
      rw [if_pos (List.isEmpty_iff.mpr hempty)]
      exact ⟨rfl, rfl⟩
    · intro hnonempty
      rw [if_neg (by simpa [List.isEmpty_iff] using hnonempty)]
      exact ⟨rfl, rfl⟩
    · by_cases hempty : s.incorrectQuestions.isEmpty = true
      · rw [if_pos hempty]
      · rw [if_neg hempty]
    · by_cases hempty : s.incorrectQuestions.isEmpty = true
      · rw [if_pos hempty]
      · rw [if_neg hempty]

/-- Demo question 1. -/
def demoQ1 : Question := ⟨1, 1⟩

/-- Demo question 2. -/
def demoQ2 : Question := ⟨2, 2⟩

/-- A player state that has just finished a retry pass over one question
with no newly incorrect answers. -/
def demoRetryDone : LessonState :=
  ⟨[demoQ1], 1, [], false, true, [demoQ1, demoQ2], false⟩

/-- C6 witness: `lesson_player_completion` applied at a concrete finished
retry pass, through the concrete `Step.retryComplete` transition for the
first conjunct and directly for the second. -/
theorem lesson_player_completion_witness :
    (retryCompletionEffect demoRetryDone).incorrectQuestions = [] ∧
    (retryCompletionEffect demoRetryDone).showCelebration = true ∧
    (retryCompletionEffect demoRetryDone).questions = demoRetryDone.originalQuestions := by
  refine ⟨?_, ?_, ?_⟩
  · exact ((lesson_player_completion demoRetryDone (retryCompletionEffect demoRetryDone)).1
      (Step.retryComplete demoRetryDone rfl (by decide) (by decide)) rfl (by decide)).2
  · exact (((lesson_player_completion demoRetryDone (retryCompletionEffect demoRetryDone)).2
      rfl (by decide) (by decide)).1 rfl).1
  · exact ((lesson_player_completion demoRetryDone (retryCompletionEffect demoRetryDone)).2
      rfl (by decide) (by decide)).2.2.1

/-! ## C3: download idempotence -/

theorem contains_eq_false_of_not_mem {α : Type} [BEq α] [LawfulBEq α] {l : List α} {a : α}
    (h : a ∉ l) : l.contains a = false := by
  cases hc : l.contains a
  · rfl
  · exact absurd (List.elem_iff.mp hc) h

theorem contains_eq_true_of_mem {α : Type} [BEq α] [LawfulBEq α] {l : List α} {a : α}
    (h : a ∈ l) : l.contains a = true :=
  List.elem_iff.mpr h

theorem foldl_downloadResource_present (net : String → Bool) (ty : ResType)
    (names : List String) (s : ResourceState) (p : DownloadProgress)
    (hdisk : ∀ n ∈ names, (fileUri ty n) ∈ s.files)
    (hset : ∀ n ∈ names, n ∉ s.downloadedResources)
    (hnodup : names.Nodup)
    (hprog : s.downloadProgress = some p) :
    names.foldl (fun st a => downloadResource net ty a st) s =
      { s with downloadedResources := s.downloadedResources ++ names,
               downloadProgress := some { p with completed := p.completed + names.length } } := by
  induction names generalizing s p with
  | nil =>
    simp only [List.foldl_nil, List.append_nil, List.length_nil, Nat.add_zero]
    rw [← hprog]
  | cons n ns ih =>
    have hstep : downloadResource net ty n s =
        { s with downloadedResources := s.downloadedResources ++ [n],
                 downloadProgress := some { p with completed := p.completed + 1 } } := by
      simp only [downloadResource, hprog, Option.map_some]
      rw [if_neg (contains_eq_false_of_not_mem (hset n (List.mem_cons_self n ns)) ▸
            Bool.false_ne_true),
          if_pos (contains_eq_true_of_mem (hdisk n (List.mem_cons_self n ns)))]
      rfl
    have hnn : n ∉ ns := (List.nodup_cons.mp hnodup).1
    rw [List.foldl_cons, hstep,
      ih { s with downloadedResources := s.downloadedResources ++ [n],
                  downloadProgress := some { p with completed := p.completed + 1 } }
        { p with completed := p.completed + 1 }
        (by intro m hm; exact hdisk m (List.mem_cons_of_mem n hm))
        (by
          intro m hm
          simp only [List.mem_append, List.mem_singleton]
          rintro (hmem | rfl)
          · exact hset m (List.mem_cons_of_mem n hm) hmem
          · exact hnn hm)
        (List.nodup_cons.mp hnodup).2
        rfl]
    simp [List.append_assoc, Nat.add_assoc, Nat.add_comm, Nat.add_left_comm]

/-- C3 (amended). Second-call download behaviour: when every file of the
manifest already exists on disk, `downloadUnitResources` performs zero
network downloads; the progress counter reaches `completed = total` just
before being cleared exactly in the fresh-session situation, that is when
none of the manifest names are already in the in-memory
`downloadedResources` set (the full call always ends with the counter
cleared to `none`). An immediate same-session second call instead
short-circuits every resource on the in-memory set without counting it, so
its pre-clear counter stays at `completed = 0` (see the counterexample). -/
theorem download_idempotent_amended (net : String → Bool) (resources : UnitResources)
    (s : ResourceState)
    (hdiskA : ∀ n ∈ resources.audio, fileUri ResType.audio n ∈ s.files)
    (hdiskI : ∀ n ∈ resources.images, fileUri ResType.image n ∈ s.files)
    (hset : ∀ n ∈ resources.audio ++ resources.images, n ∉ s.downloadedResources)
    (hnodup : (resources.audio ++ resources.images).Nodup) :
    (downloadUnitResourcesCore net resources s).networkDownloads = s.networkDownloads ∧
    (downloadUnitResourcesCore net resources s).downloadProgress =
      some { total := resources.audio.length + resources.images.length,
             completed := resources.audio.length + resources.images.length } ∧
    (downloadUnitResources net resources s).networkDownloads = s.networkDownloads ∧
    (downloadUnitResources net resources s).downloadProgress = none := by
  obtain ⟨hnA, hnI, hdisj⟩ := List.nodup_append.mp hnodup
  have hsetA : ∀ n ∈ resources.audio, n ∉ s.downloadedResources := by
    intro n hn
    exact hset n (List.mem_append_left _ hn)
  have hsetI : ∀ n ∈ resources.images, n ∉ s.downloadedResources := by
    intro n hn
    exact hset n (List.mem_append_right _ hn)
  have hcore : downloadUnitResourcesCore net resources s =
      { s with downloadedResources := (s.downloadedResources ++ resources.audio) ++ resources.images,
               downloadProgress :=
                 some { total := resources.audio.length + resources.images.length,
                        completed := resources.audio.length + resources.images.length } } := by
    have e1 : downloadUnitResourcesCore net resources s =
        resources.images.foldl (fun st i => downloadResource net ResType.image i st)
          (resources.audio.foldl (fun st a => downloadResource net ResType.audio a st)
            { s with
              downloadProgress :=
                some (DownloadProgress.mk
                  (resources.audio.length + resources.images.length) 0) }) := rfl
    rw [e1,
      foldl_downloadResource_present net ResType.audio resources.audio
        { s with
          downloadProgress :=
            some (DownloadProgress.mk
              (resources.audio.length + resources.images.length) 0) }
        (DownloadProgress.mk (resources.audio.length + resources.images.length) 0)
        (by intro n hn; exact hdiskA n hn)
        (by intro n hn; exact hsetA n hn)
        hnA rfl,
      foldl_downloadResource_present net ResType.image resources.images _
        (DownloadProgress.mk (resources.audio.length + resources.images.length)
          (0 + resources.audio.length))
        (by intro n hn; exact hdiskI n hn)
        (by
          intro n hn
          simp only [List.mem_append]
          rintro (hmem | hmem)
          · exact hsetI n hn hmem
          · exact hdisj hmem hn)
        hnI rfl]
    simp
  refine ⟨?_, ?_, ?_, ?_⟩
  · rw [hcore]
  · rw [hcore]
  · show (downloadUnitResourcesCore net resources s).networkDownloads = s.networkDownloads
    rw [hcore]
  · rfl

/-- Manifest of the concrete download scenario. -/
def demoRes : UnitResources := ⟨["hola.mp3"], []⟩

/-- Network oracle of the concrete download scenario: every download
succeeds. -/
def demoNet : String → Bool := fun _ => true

/-- State after the first `downloadUnitResources` call from an empty
device. -/
def demoAfterFirst : ResourceState :=
  downloadUnitResources demoNet demoRes ⟨[], [], none, []⟩

/-- Second same-session call, stopped just before the counter is cleared. -/
def demoSecondCore : ResourceState :=
  downloadUnitResourcesCore demoNet demoRes demoAfterFirst

/-- C3 counterexample: after a first successful call, every manifest file
exists on disk; an immediate second call performs zero network downloads
but its pre-clear progress counter reads `completed = 0`, not
`completed = total = 1`, because each resource short-circuits on the
in-memory `downloadedResources` set before the counter update. -/
theorem download_idempotence_counterexample :
    demoAfterFirst.files = ["audio/hola.mp3"] ∧
    demoAfterFirst.downloadedResources = ["hola.mp3"] ∧
    demoSecondCore.networkDownloads = demoAfterFirst.networkDownloads ∧
    demoSecondCore.downloadProgress = some { total := 1, completed := 0 } ∧
    demoSecondCore.downloadProgress ≠ some { total := 1, completed := 1 } := by
  decide

/-- C3 witness: `download_idempotent_amended` applied to a fresh session
(empty in-memory set) whose two manifest files are already on disk, with a
network oracle that would fail every download: no downloads happen and the
pre-clear counter reads 2 of 2. -/
theorem download_idempotent_amended_witness :
    (downloadUnitResourcesCore (fun _ => false) ⟨["a.mp3"], ["b.png"]⟩
        ⟨[], ["audio/a.mp3", "image/b.png"], none, []⟩).networkDownloads = [] ∧
    (downloadUnitResourcesCore (fun _ => false) ⟨["a.mp3"], ["b.png"]⟩
        ⟨[], ["audio/a.mp3", "image/b.png"], none, []⟩).downloadProgress =
      some { total := 2, completed := 2 } ∧
    (downloadUnitResources (fun _ => false) ⟨["a.mp3"], ["b.png"]⟩
        ⟨[], ["audio/a.mp3", "image/b.png"], none, []⟩).downloadProgress = none := by
  have h := download_idempotent_amended (fun _ => false) ⟨["a.mp3"], ["b.png"]⟩
    ⟨[], ["audio/a.mp3", "image/b.png"], none, []⟩
    (by decide) (by decide) (by decide) (by decide)
  exact ⟨h.1, h.2.1, h.2.2.2⟩

end DimpoLang
